import Mathlib

/-!
Verification of the quiz application core (quiz session engine, question-bank
persistence contract, credential store) against its natural-language
specification.  The Python source is shallowly embedded: pure functions become
Lean functions, the Streamlit session state becomes an explicit `QuizState`
record, file persistence becomes explicit store passing, and the randomness of
`random.sample` / `random.shuffle` is modelled by function parameters
constrained to produce sub-permutations / permutations.
-/

namespace QuizApp

/-! ## SHA-256 (embedding of `hashlib.sha256(...).hexdigest()`)

`hash_password` in the source calls Python's `hashlib.sha256` on the UTF-8
encoding of the password and returns the lowercase hex digest.  The full
SHA-256 function is embedded here over `Nat` with explicit reduction
modulo 2 ^ 32. -/

/-- Reduce a natural number modulo 2 ^ 32 (32-bit word arithmetic). -/
def w32 (n : Nat) : Nat := n % 2 ^ 32

/-- Rotate a 32-bit word right by `n` bits. -/
def rotr (n x : Nat) : Nat := w32 ((x >>> n) ||| (x <<< (32 - n)))

/-- SHA-256 big sigma 0. -/
def bigSigma0 (x : Nat) : Nat := (rotr 2 x) ^^^ (rotr 13 x) ^^^ (rotr 22 x)

/-- SHA-256 big sigma 1. -/
def bigSigma1 (x : Nat) : Nat := (rotr 6 x) ^^^ (rotr 11 x) ^^^ (rotr 25 x)

/-- SHA-256 small sigma 0. -/
def smallSigma0 (x : Nat) : Nat := (rotr 7 x) ^^^ (rotr 18 x) ^^^ (x >>> 3)

/-- SHA-256 small sigma 1. -/
def smallSigma1 (x : Nat) : Nat := (rotr 17 x) ^^^ (rotr 19 x) ^^^ (x >>> 10)

/-- SHA-256 choice function. -/
def chf (x y z : Nat) : Nat := (x &&& y) ^^^ ((x ^^^ (2 ^ 32 - 1)) &&& z)

/-- SHA-256 majority function. -/
def majf (x y z : Nat) : Nat := (x &&& y) ^^^ (x &&& z) ^^^ (y &&& z)

/-- SHA-256 round constants (FIPS 180-4, written in decimal). -/
def K256 : List Nat :=
  [1116352408, 1899447441, 3049323471, 3921009573, 961987163,
   1508970993, 2453635748, 2870763221, 3624381080, 310598401,
   607225278, 1426881987, 1925078388, 2162078206, 2614888103,
   3248222580, 3835390401, 4022224774, 264347078, 604807628,
   770255983, 1249150122, 1555081692, 1996064986, 2554220882,
   2821834349, 2952996808, 3210313671, 3336571891, 3584528711,
   113926993, 338241895, 666307205, 773529912, 1294757372,
   1396182291, 1695183700, 1986661051, 2177026350, 2456956037,
   2730485921, 2820302411, 3259730800, 3345764771, 3516065817,
   3600352804, 4094571909, 275423344, 430227734, 506948616,
   659060556, 883997877, 958139571, 1322822218, 1537002063,
   1747873779, 1955562222, 2024104815, 2227730452, 2361852424,
   2428436474, 2756734187, 3204031479, 3329325298]

/-- SHA-256 initial hash values (FIPS 180-4, written in decimal). -/
def H256 : List Nat :=
  [1779033703, 3144134277, 1013904242, 2773480762,
   1359893119, 2600822924, 528734635, 1541459225]

/-- Split a byte list into `n` chunks of 64 bytes. -/
def chunks64 : Nat → List Nat → List (List Nat)
  | 0, _ => []
  | n + 1, bs => bs.take 64 :: chunks64 n (bs.drop 64)

/-- Assemble `n` big-endian 32-bit words from a byte list. -/
def bytesToWords : Nat → List Nat → List Nat
  | 0, _ => []
  | n + 1, bs =>
      (bs.getD 0 0 * 2 ^ 24 + bs.getD 1 0 * 2 ^ 16 + bs.getD 2 0 * 2 ^ 8 + bs.getD 3 0)
        :: bytesToWords n (bs.drop 4)

/-- Extend a 16-word block to the 64-word message schedule, `n` words at a time. -/
def extendSchedule : Nat → List Nat → List Nat
  | 0, w => w
  | n + 1, w =>
      let t := w.length
      extendSchedule n
        (w ++ [w32 (smallSigma1 (w.getD (t - 2) 0) + w.getD (t - 7) 0 +
                    smallSigma0 (w.getD (t - 15) 0) + w.getD (t - 16) 0)])

/-- The SHA-256 working state: one round of the compression function. -/
def roundStep (st : Nat × Nat × Nat × Nat × Nat × Nat × Nat × Nat) (kw : Nat × Nat) :
    Nat × Nat × Nat × Nat × Nat × Nat × Nat × Nat :=
  match st, kw with
  | (a, b, c, d, e, f, g, h), (k, w) =>
      let t1 := w32 (h + bigSigma1 e + chf e f g + k + w)
      let t2 := w32 (bigSigma0 a + majf a b c)
      (w32 (t1 + t2), a, b, c, w32 (d + t1), e, f, g)

/-- SHA-256 compression of one 64-byte block into the running hash. -/
def compress (hs : List Nat) (block : List Nat) : List Nat :=
  let ws := extendSchedule 48 (bytesToWords 16 block)
  let r := (K256.zip ws).foldl roundStep
    (hs.getD 0 0, hs.getD 1 0, hs.getD 2 0, hs.getD 3 0,
     hs.getD 4 0, hs.getD 5 0, hs.getD 6 0, hs.getD 7 0)
  match r with
  | (a, b, c, d, e, f, g, h) =>
      [w32 (hs.getD 0 0 + a), w32 (hs.getD 1 0 + b), w32 (hs.getD 2 0 + c),
       w32 (hs.getD 3 0 + d), w32 (hs.getD 4 0 + e), w32 (hs.getD 5 0 + f),
       w32 (hs.getD 6 0 + g), w32 (hs.getD 7 0 + h)]

/-- The 8-byte big-endian encoding of the message bit length. -/
def lenBytes (n : Nat) : List Nat :=
  [(n >>> 56) % 256, (n >>> 48) % 256, (n >>> 40) % 256, (n >>> 32) % 256,
   (n >>> 24) % 256, (n >>> 16) % 256, (n >>> 8) % 256, n % 256]

/-- SHA-256 of a byte list, as the final eight 32-bit hash words. -/
def sha256Words (msg : List Nat) : List Nat :=
  let L := msg.length
  let padded := msg ++ 0x80 :: List.replicate ((119 - L % 64) % 64) 0 ++ lenBytes (8 * L)
  (chunks64 (padded.length / 64) padded).foldl compress H256

/-- Lowercase hex digit for a value below 16. -/
def hexChar (n : Nat) : Char :=
  if n < 10 then Char.ofNat (48 + n) else Char.ofNat (87 + n)

/-- Lowercase 8-digit hex rendering of a 32-bit word. -/
def wordHex (w : Nat) : String :=
  String.mk [hexChar ((w >>> 28) % 16), hexChar ((w >>> 24) % 16),
             hexChar ((w >>> 20) % 16), hexChar ((w >>> 16) % 16),
             hexChar ((w >>> 12) % 16), hexChar ((w >>> 8) % 16),
             hexChar ((w >>> 4) % 16), hexChar (w % 16)]

/-- UTF-8 encoding of one Unicode code point. -/
def utf8Char (c : Nat) : List Nat :=
  if c < 0x80 then [c]
  else if c < 0x800 then [0xC0 + c / 64, 0x80 + c % 64]
  else if c < 0x10000 then [0xE0 + c / 4096, 0x80 + (c / 64) % 64, 0x80 + c % 64]
  else [0xF0 + c / 262144, 0x80 + (c / 4096) % 64, 0x80 + (c / 64) % 64, 0x80 + c % 64]

/-- UTF-8 byte encoding of a string (Python `str.encode()`). -/
def utf8Bytes (s : String) : List Nat :=
  s.data.foldr (fun c acc => utf8Char c.toNat ++ acc) []

/-- Embedding of `hash_password`: `hashlib.sha256(password.encode()).hexdigest()`. -/
def hash_password (password : String) : String :=
  String.join ((sha256Words (utf8Bytes password)).map wordHex)

/-! ## Credential store (embedding of `create_user`, `verify_user`)

The on-disk `users.json` dictionary is embedded as an association list from
username to password hash, threaded explicitly: `load_users` corresponds to
receiving the list, `save_users` to returning it.  Python dictionaries keep
insertion order, so adding an absent key appends a pair at the end. -/

/-- Embedding of `create_user`: if the username is absent, store
`hash_password password` under it, persist, and return `True`; otherwise
return `False`.  The returned list is the persisted store. -/
def create_user (users : List (String × String)) (username password : String) :
    Bool × List (String × String) :=
  if users.lookup username = none then
    (true, users ++ [(username, hash_password password)])
  else
    (false, users)

/-- Embedding of `verify_user`: `username in users and
users[username] == hash_password(password)`. -/
def verify_user (users : List (String × String)) (username password : String) : Bool :=
  match users.lookup username with
  | some h => h = hash_password password
  | none => false

/-! ## Question records and the question bank (embedding of
`load_questions` / `save_questions`)

A question record is a JSON object with the fields below; `image_path` is
optional/nullable, which the embedding represents as `Option String` (the
Python code normalises a missing or falsy value to `None`).  File input and
output are modelled at the level of the parsed record sequence: `load_questions`
acts on the parsed list, and `save_questions` (a `json.dump` of that list)
reproduces it. -/

structure Question where
  id : String
  question : String
  category : String
  difficulty : String
  options : List String
  correct_answer : String
  image_path : Option String
deriving Repr, DecidableEq, Inhabited

/-- Embedding of the per-record image check in `load_questions`:
`if 'image_path' in question and question['image_path']:` (truthy means a
non-null, non-empty string) then `Image.open` is attempted, and on failure the
reference is cleared to `None`; a missing or falsy value is set to `None`.
`loadable p` models `Image.open(p)` succeeding. -/
def process_image (loadable : String → Bool) (q : Question) : Question :=
  match q.image_path with
  | some p =>
      if p ≠ "" then
        if loadable p then q else { q with image_path := none }
      else { q with image_path := none }
  | none => { q with image_path := none }

/-- Embedding of `load_questions` on a successfully parsed record sequence:
each record has its image reference checked and possibly nulled. -/
def load_questions (loadable : String → Bool) (questions : List Question) : List Question :=
  questions.map (process_image loadable)

/-- Embedding of `save_questions`: `json.dump` serialises the full ordered
record sequence, so at the record level the persisted document is exactly the
given sequence. -/
def save_questions (questions : List Question) : List Question := questions

/-- Specification-side transform for the round-trip property, written from the
spec's words: records whose `image_path` fails to resolve to a loadable image
have that reference set to null; all other records are unchanged. -/
def spec_null_unresolvable (loadable : String → Bool) (q : Question) : Question :=
  match q.image_path with
  | some p => if loadable p then q else { q with image_path := none }
  | none => q

/-! ## Quiz session state (embedding of `initialize_quiz_state` and
`quiz_interface`)

`st.session_state` becomes an explicit record.  `random.sample(qs, k)` is
modelled by a parameter `sampleFn` constrained (in the theorems) to return a
length-`k` sub-permutation of `qs`; `random.shuffle` by a parameter
`shuffleFn` constrained to return a permutation of its input. -/

structure QuizState where
  questions : List Question
  total_questions : Nat
  correct_answers : Nat
  incorrect_questions : List String
  current_question : Nat
  shuffled_options : List (List String)
  quiz_started : Bool
deriving Repr, DecidableEq

/-- The difficulty keys accepted by `initialize_quiz_state`
(`{"low": 10, "medium": 20, "hard": 30}`). -/
inductive Difficulty where
  | low
  | medium
  | hard
deriving Repr, DecidableEq

/-- Embedding of `num_questions = {"low": 10, "medium": 20, "hard": 30}[difficulty]`. -/
def num_questions : Difficulty → Nat
  | .low => 10
  | .medium => 20
  | .hard => 30

/-- Embedding of the per-question option preparation in
`initialize_quiz_state`: copy `options`, append `correct_answer` if missing,
then shuffle. -/
def build_options (shuffleFn : List String → List String) (q : Question) : List String :=
  let options := if q.correct_answer ∈ q.options then q.options
                 else q.options ++ [q.correct_answer]
  shuffleFn options

/-- Embedding of `initialize_quiz_state(questions, difficulty)`. -/
def initialize_quiz_state (sampleFn : List Question → Nat → List Question)
    (shuffleFn : List String → List String)
    (questions : List Question) (difficulty : Difficulty) : QuizState :=
  let sampled := sampleFn questions (min (num_questions difficulty) questions.length)
  { questions := sampled
    total_questions := sampled.length
    correct_answers := 0
    incorrect_questions := []
    current_question := 0
    shuffled_options := sampled.map (build_options shuffleFn)
    quiz_started := false }

/-- Embedding of the `Start Quiz` button: `ss.quiz_started = True`. -/
def start_quiz (ss : QuizState) : QuizState := { ss with quiz_started := true }

/-- Embedding of the `Submit Answer` handler in `quiz_interface`: compare the
selected option with the current record's `correct_answer`; on match increment
`correct_answers`, on mismatch append the record's id to
`incorrect_questions`; then advance `current_question` by one. -/
def submit_answer (ss : QuizState) (user_answer : String) : QuizState :=
  let question := ss.questions.getD ss.current_question default
  if user_answer = question.correct_answer then
    { ss with correct_answers := ss.correct_answers + 1,
              current_question := ss.current_question + 1 }
  else
    { ss with incorrect_questions := ss.incorrect_questions ++ [question.id],
              current_question := ss.current_question + 1 }

/-- Guarded answer step: the `Submit Answer` interaction exists only inside the
`ss.current_question < ss.total_questions` branch of `quiz_interface`, so an
answer is accepted exactly when the cursor is below the total. -/
def submit_answer_opt (ss : QuizState) (user_answer : String) : Option QuizState :=
  if ss.current_question < ss.total_questions then some (submit_answer ss user_answer)
  else none

/-- Embedding of the in-progress question display: the record at the cursor and
its frozen shuffled options, available only while
`current_question < total_questions`. -/
def current_question_query (ss : QuizState) : Option (Question × List String) :=
  if ss.current_question < ss.total_questions then
    some (ss.questions.getD ss.current_question default,
          ss.shuffled_options.getD ss.current_question [])
  else none

/-- Embedding of the final report branch of `quiz_interface`: shown only once
the cursor has reached the total. -/
def report_query (ss : QuizState) : Option (Nat × Nat × List String) :=
  if ss.current_question < ss.total_questions then none
  else some (ss.correct_answers, ss.total_questions, ss.incorrect_questions)

/-- Embedding of the `Restart Quiz` button: it calls
`initialize_quiz_state(questions, difficulty)` again on the same bank and
difficulty, ignoring the previous session state entirely. -/
def restart_quiz (sampleFn : List Question → Nat → List Question)
    (shuffleFn : List String → List String)
    (questions : List Question) (difficulty : Difficulty)
    (_prior : QuizState) : QuizState :=
  initialize_quiz_state sampleFn shuffleFn questions difficulty

/-- A sampling function behaves like `random.sample`: for a feasible request it
returns exactly `k` elements drawn from the list without replacement (a
sub-permutation). -/
def IsSampler (sampleFn : List Question → Nat → List Question) : Prop :=
  ∀ qs k, k ≤ qs.length → (sampleFn qs k).length = k ∧ List.Subperm (sampleFn qs k) qs

/-- A shuffling function behaves like `random.shuffle`: it returns a
permutation of its input. -/
def IsShuffler (shuffleFn : List String → List String) : Prop :=
  ∀ l, List.Perm (shuffleFn l) l

/-- A concrete sampler (taking the first `k` records), used to instantiate the
sampler hypotheses on concrete inputs. -/
def sample_take (qs : List Question) (k : Nat) : List Question := qs.take k

/-- States reachable from `initialize_quiz_state` by any sequence of start,
accepted answer, and restart operations on a fixed bank and difficulty. -/
inductive Reachable (bank : List Question) (d : Difficulty) : QuizState → Prop where
  | init (sampleFn shuffleFn) (hs : IsSampler sampleFn) (hf : IsShuffler shuffleFn) :
      Reachable bank d (initialize_quiz_state sampleFn shuffleFn bank d)
  | start (ss) : Reachable bank d ss → Reachable bank d (start_quiz ss)
  | answer (ss a ss2) : Reachable bank d ss → submit_answer_opt ss a = some ss2 →
      Reachable bank d ss2
  | restart (ss sampleFn shuffleFn) (hs : IsSampler sampleFn)
      (hf : IsShuffler shuffleFn) : Reachable bank d ss →
      Reachable bank d (restart_quiz sampleFn shuffleFn bank d ss)

/-! ## Helper lemmas -/

/-- Appending a binding for a key absent from an association list makes lookup
of that key find the new binding. -/
lemma lookup_append_right (users : List (String × String)) (u v : String)
    (h : users.lookup u = none) : (users ++ [(u, v)]).lookup u = some v := by
  induction users with
  | nil => simp [List.lookup]
  | cons kv t ih =>
      obtain ⟨k, v2⟩ := kv
      by_cases hk : u = k
      · subst hk
        simp [List.lookup] at h
      · have hke : (u == k) = false := beq_false_of_ne hk
        simp only [List.cons_append, List.lookup, hke] at h ⊢
        exact ih h

end QuizApp

namespace QuizApp

/-! ## Claim theorems: credential store -/

/-- C6: registering an existing username returns false and leaves the stored
hash (and the persisted store) unchanged; registering a fresh username stores
`hash_password password` under it, persists, and returns true; in particular a
second registration of the same username returns false and the stored hash
remains that of the first password. -/
theorem create_user_register_spec (users : List (String × String)) (u p p2 : String) :
    (users.lookup u ≠ none → create_user users u p = (false, users)) ∧
    (users.lookup u = none →
      create_user users u p = (true, users ++ [(u, hash_password p)]) ∧
      (create_user users u p).2.lookup u = some (hash_password p)) ∧
    (users.lookup u = none →
      (create_user (create_user users u p).2 u p2).1 = false ∧
      (create_user (create_user users u p).2 u p2).2.lookup u = some (hash_password p)) := by
  refine ⟨fun h => ?_, fun h => ?_, fun h => ?_⟩
  · simp only [create_user, if_neg h]
  · simp only [create_user, if_pos h, true_and]
    exact lookup_append_right users u (hash_password p) h
  · have hl := lookup_append_right users u (hash_password p) h
    have hne : ¬ ((users ++ [(u, hash_password p)]).lookup u = none) := by simp [hl]
    constructor
    · simp only [create_user, if_pos h, if_neg hne]
    · simp only [create_user, if_pos h, if_neg hne]
      exact hl

/-- Closed witness for `create_user_register_spec` at a concrete store. -/
theorem create_user_register_spec_witness :
    create_user [] "a" "p" = (true, [("a", hash_password "p")]) ∧
    (create_user (create_user [] "a" "p").2 "a" "p2").1 = false ∧
    (create_user (create_user [] "a" "p").2 "a" "p2").2.lookup "a" =
      some (hash_password "p") :=
  ⟨by simpa using ((create_user_register_spec [] "a" "p" "p2").2.1 rfl).1,
   (create_user_register_spec [] "a" "p" "p2").2.2 rfl⟩

/-- C7: `verify_user` returns true exactly when the username exists and the
hash of the supplied password equals the stored digest; in particular after
registering "a" with password "p" on a store without "a", verification
succeeds with "p" and fails with "wrong". -/
theorem verify_user_spec (users : List (String × String)) (u p : String) :
    (verify_user users u p = true ↔ users.lookup u = some (hash_password p)) ∧
    (users.lookup "a" = none →
      verify_user (create_user users "a" "p").2 "a" "p" = true ∧
      verify_user (create_user users "a" "p").2 "a" "wrong" = false) := by
  constructor
  · unfold verify_user
    cases hl : users.lookup u with
    | none => simp
    | some h => simp
  · intro h
    have hl := lookup_append_right users "a" (hash_password "p") h
    have hpw : hash_password "p" ≠ hash_password "wrong" := by decide
    constructor
    · simp only [create_user, if_pos h, verify_user, hl]
      simp
    · simp only [create_user, if_pos h, verify_user, hl]
      simpa using hpw

/-- Closed witness for `verify_user_spec` at a concrete store. -/
theorem verify_user_spec_witness :
    verify_user (create_user [] "a" "p").2 "a" "p" = true ∧
    verify_user (create_user [] "a" "p").2 "a" "wrong" = false :=
  (verify_user_spec [] "a" "p").2 rfl

/-- C10: the credential store performs no validation of credential content:
an empty username absent from the store is registered and persisted with
`hash_password p`, and an empty password is accepted and hashed like any
other. -/
theorem create_user_no_validation (users : List (String × String)) (p u : String) :
    (users.lookup "" = none →
      create_user users "" p = (true, users ++ [("", hash_password p)]) ∧
      (create_user users "" p).2.lookup "" = some (hash_password p)) ∧
    (users.lookup u = none →
      create_user users u "" = (true, users ++ [(u, hash_password "")])) := by
  refine ⟨fun h => ?_, fun h => ?_⟩
  · simp only [create_user, if_pos h, true_and]
    exact lookup_append_right users "" (hash_password p) h
  · simp only [create_user, if_pos h]

/-- Closed witness for `create_user_no_validation` at a concrete store. -/
theorem create_user_no_validation_witness :
    create_user [] "" "p" = (true, [("", hash_password "p")]) ∧
    create_user [] "u" "" = (true, [("u", hash_password "")]) :=
  ⟨by simpa using ((create_user_no_validation [] "p" "u").1 rfl).1,
   by simpa using (create_user_no_validation [] "p" "u").2 rfl⟩

/-! ## Concrete fixtures for witnesses -/

/-- A concrete question record used by the closed witnesses. -/
def demo_question : Question :=
  { id := "q1", question := "what", category := "general", difficulty := "easy",
    options := ["x", "y"], correct_answer := "x", image_path := none }

/-- A concrete in-progress session state used by the closed witnesses. -/
def demo_state : QuizState :=
  { questions := [demo_question], total_questions := 1, correct_answers := 0,
    incorrect_questions := [], current_question := 0,
    shuffled_options := [["y", "x"]], quiz_started := true }

/-- The take-a-prefix sampler satisfies the `random.sample` contract. -/
lemma isSampler_sample_take : IsSampler sample_take := by
  intro qs k hk
  constructor
  · simpa [sample_take] using Nat.min_eq_left hk
  · exact (List.take_sublist k qs).subperm

/-- The identity shuffle satisfies the `random.shuffle` contract. -/
lemma isShuffler_id : IsShuffler id := fun l => List.Perm.refl l

/-- Getting with default from a mapped list, inside the length bound. -/
lemma getD_map_of_lt {α β : Type} (f : α → β) (l : List α) (i : Nat)
    (hi : i < l.length) (d : α) (d2 : β) :
    (l.map f).getD i d2 = f (l.getD i d) := by
  induction l generalizing i with
  | nil => simp at hi
  | cons a t ih =>
      cases i with
      | zero => simp
      | succ n =>
          simp only [List.map_cons, List.getD_cons_succ]
          exact ih n (by simpa using hi)

/-! ## Claim theorems: quiz session -/

/-- C1: for an in-progress session, submitting any answer advances
`current_question` by exactly one; `correct_answers` is incremented exactly
when the selected option equals the current record's `correct_answer`, and the
current record's id is appended to `incorrect_questions` exactly when it does
not. -/
theorem submit_answer_spec (ss : QuizState) (a : String)
    (_h : ss.current_question < ss.total_questions) :
    ((submit_answer ss a).current_question = ss.current_question + 1) ∧
    ((submit_answer ss a).correct_answers =
      if a = (ss.questions.getD ss.current_question default).correct_answer
      then ss.correct_answers + 1 else ss.correct_answers) ∧
    ((submit_answer ss a).correct_answers = ss.correct_answers + 1 ↔
      a = (ss.questions.getD ss.current_question default).correct_answer) ∧
    ((submit_answer ss a).incorrect_questions =
      if a = (ss.questions.getD ss.current_question default).correct_answer
      then ss.incorrect_questions
      else ss.incorrect_questions ++ [(ss.questions.getD ss.current_question default).id]) ∧
    ((submit_answer ss a).incorrect_questions =
      ss.incorrect_questions ++ [(ss.questions.getD ss.current_question default).id] ↔
      a ≠ (ss.questions.getD ss.current_question default).correct_answer) := by
  unfold submit_answer
  by_cases hc : a = (ss.questions.getD ss.current_question default).correct_answer
  · rw [if_pos hc]
    refine ⟨rfl, ?_, ?_, ?_, ?_⟩
    · rw [if_pos hc]
    · exact ⟨fun _ => hc, fun _ => rfl⟩
    · rw [if_pos hc]
    · constructor
      · intro habs
        have hlen := congrArg List.length habs
        simp at hlen
      · intro habs
        exact absurd hc habs
  · rw [if_neg hc]
    refine ⟨rfl, ?_, ?_, ?_, ?_⟩
    · rw [if_neg hc]
    · constructor
      · intro habs
        have : ss.correct_answers = ss.correct_answers + 1 := habs
        omega
      · intro habs
        exact absurd habs hc
    · rw [if_neg hc]
    · exact ⟨fun _ => hc, fun _ => rfl⟩

/-- Closed witness for `submit_answer_spec` on a concrete in-progress state. -/
theorem submit_answer_spec_witness :
    (submit_answer demo_state "y").current_question = demo_state.current_question + 1 :=
  (submit_answer_spec demo_state "y" (by decide)).1

/-- C8: saving the result of loading a parsed question sequence reproduces the
sequence, except that records whose image reference does not resolve to a
loadable image have that reference set to null (the spec-side transform
`spec_null_unresolvable`).  The hypothesis records that opening an empty image
path always fails. -/
theorem save_load_round_trip (loadable : String → Bool) (h : loadable "" = false)
    (x : List Question) :
    save_questions (load_questions loadable x) =
      x.map (spec_null_unresolvable loadable) := by
  have hq : ∀ q, process_image loadable q = spec_null_unresolvable loadable q := by
    intro q
    unfold process_image spec_null_unresolvable
    cases hip : q.image_path with
    | none =>
        obtain ⟨i, qq, c, df, o, ca, ip⟩ := q
        simp only at hip
        subst hip
        rfl
    | some p =>
        by_cases hp : p = ""
        · subst hp
          simp [h]
        · simp [hp]
  unfold save_questions load_questions
  rw [funext hq]

/-- Closed witness for `save_load_round_trip` with a loader that fails on
every path. -/
theorem save_load_round_trip_witness :
    save_questions (load_questions (fun _ => false) [demo_question]) =
      [demo_question].map (spec_null_unresolvable (fun _ => false)) :=
  save_load_round_trip (fun _ => false) rfl [demo_question]

/-- C9: restart re-runs initialization on the same bank and difficulty,
resetting the cursor, the score and the wrong-answer list, rebuilding the
sample and the shuffled-options lists, and discarding all prior session state
(the result does not depend on the prior state). -/
theorem restart_quiz_spec (sampleFn : List Question → Nat → List Question)
    (shuffleFn : List String → List String)
    (qs : List Question) (d : Difficulty) (ss : QuizState) :
    restart_quiz sampleFn shuffleFn qs d ss =
      initialize_quiz_state sampleFn shuffleFn qs d ∧
    (restart_quiz sampleFn shuffleFn qs d ss).current_question = 0 ∧
    (restart_quiz sampleFn shuffleFn qs d ss).correct_answers = 0 ∧
    (restart_quiz sampleFn shuffleFn qs d ss).incorrect_questions = [] ∧
    (restart_quiz sampleFn shuffleFn qs d ss).quiz_started = false ∧
    (∀ prior : QuizState,
      restart_quiz sampleFn shuffleFn qs d ss = restart_quiz sampleFn shuffleFn qs d prior) ∧
    (restart_quiz sampleFn shuffleFn qs d ss).questions =
      sampleFn qs (min (num_questions d) qs.length) ∧
    (restart_quiz sampleFn shuffleFn qs d ss).shuffled_options =
      (sampleFn qs (min (num_questions d) qs.length)).map (build_options shuffleFn) :=
  ⟨rfl, rfl, rfl, rfl, rfl, fun _ => rfl, rfl, rfl⟩

/-- C2: for each difficulty the target count is low 10, medium 20, hard 30;
initialization selects exactly `min (target) (bank size)` records, drawn
without replacement (each bank record appears in the sample at most as often
as in the bank, so at most once for a duplicate-free bank), and
`total_questions` equals the number of sampled records. -/
theorem initialize_sampling_spec (sampleFn : List Question → Nat → List Question)
    (shuffleFn : List String → List String) (hs : IsSampler sampleFn)
    (qs : List Question) (d : Difficulty) :
    (num_questions .low = 10 ∧ num_questions .medium = 20 ∧ num_questions .hard = 30) ∧
    (initialize_quiz_state sampleFn shuffleFn qs d).questions.length =
      min (num_questions d) qs.length ∧
    (initialize_quiz_state sampleFn shuffleFn qs d).total_questions =
      min (num_questions d) qs.length ∧
    (∀ q : Question,
      (initialize_quiz_state sampleFn shuffleFn qs d).questions.count q ≤ qs.count q) ∧
    (qs.Nodup → (initialize_quiz_state sampleFn shuffleFn qs d).questions.Nodup) := by
  obtain ⟨hlen, hsub⟩ := hs qs (min (num_questions d) qs.length) (Nat.min_le_right _ _)
  refine ⟨⟨rfl, rfl, rfl⟩, hlen, hlen, fun q => hsub.count_le q, fun hnd => ?_⟩
  obtain ⟨l, hperm, hsl⟩ := hsub
  exact hperm.nodup (hnd.sublist hsl)

/-- Closed witness for `initialize_sampling_spec` with the prefix sampler. -/
theorem initialize_sampling_spec_witness :
    (initialize_quiz_state sample_take id [demo_question] Difficulty.low).questions.length =
      min (num_questions Difficulty.low) [demo_question].length :=
  (initialize_sampling_spec sample_take id isSampler_sample_take [demo_question]
    Difficulty.low).2.1

/-- C3: for every sampled record, the shuffled-options list built at
initialization is a permutation of the record's original options with
`correct_answer` appended exactly when absent; hence it contains
`correct_answer` and preserves every original option's multiplicity, and it is
stored once at initialization while the session operations (`submit_answer`,
`start_quiz`) never recompute it. -/
theorem initialize_shuffle_spec (sampleFn : List Question → Nat → List Question)
    (shuffleFn : List String → List String) (hf : IsShuffler shuffleFn)
    (qs : List Question) (d : Difficulty) (i : Nat)
    (hi : i < (initialize_quiz_state sampleFn shuffleFn qs d).questions.length)
    (q : Question) (opts : List String)
    (hq : q = (initialize_quiz_state sampleFn shuffleFn qs d).questions.getD i default)
    (hopts : opts =
      (initialize_quiz_state sampleFn shuffleFn qs d).shuffled_options.getD i []) :
    List.Perm opts (if q.correct_answer ∈ q.options then q.options
                    else q.options ++ [q.correct_answer]) ∧
    q.correct_answer ∈ opts ∧
    (∀ o, o ≠ q.correct_answer → opts.count o = q.options.count o) ∧
    (q.correct_answer ∈ q.options →
      opts.count q.correct_answer = q.options.count q.correct_answer) ∧
    (q.correct_answer ∉ q.options → opts.count q.correct_answer = 1) ∧
    (∀ ss a, (submit_answer ss a).shuffled_options = ss.shuffled_options) ∧
    (∀ ss, (start_quiz ss).shuffled_options = ss.shuffled_options) := by
  have hmap : (initialize_quiz_state sampleFn shuffleFn qs d).shuffled_options =
      (initialize_quiz_state sampleFn shuffleFn qs d).questions.map
        (build_options shuffleFn) := rfl
  rw [hmap, getD_map_of_lt _ _ i hi default []] at hopts
  rw [← hq] at hopts
  have hperm : List.Perm opts (if q.correct_answer ∈ q.options then q.options
      else q.options ++ [q.correct_answer]) := by
    rw [hopts]
    exact hf _
  have hmem : q.correct_answer ∈
      (if q.correct_answer ∈ q.options then q.options
       else q.options ++ [q.correct_answer]) := by
    by_cases hin : q.correct_answer ∈ q.options
    · rw [if_pos hin]; exact hin
    · rw [if_neg hin]; exact List.mem_append_right _ (List.mem_singleton.mpr rfl)
  refine ⟨hperm, hperm.mem_iff.mpr hmem, ?_, ?_, ?_, ?_, fun ss => rfl⟩
  · intro o ho
    rw [hperm.count_eq]
    by_cases hin : q.correct_answer ∈ q.options
    · rw [if_pos hin]
    · rw [if_neg hin, List.count_append, List.count_singleton]
      simp [ho]
      exact Ne.symm ho
  · intro hin
    rw [hperm.count_eq, if_pos hin]
  · intro hin
    rw [hperm.count_eq, if_neg hin, List.count_append]
    rw [List.count_eq_zero.mpr hin]
    simp
  · intro ss a
    unfold submit_answer
    by_cases hc : a = (ss.questions.getD ss.current_question default).correct_answer
    · rw [if_pos hc]
    · rw [if_neg hc]

/-- Closed witness for `initialize_shuffle_spec` on a concrete bank. -/
theorem initialize_shuffle_spec_witness :
    ((initialize_quiz_state sample_take id [demo_question]
        Difficulty.low).questions.getD 0 default).correct_answer ∈
      (initialize_quiz_state sample_take id [demo_question]
        Difficulty.low).shuffled_options.getD 0 [] :=
  (initialize_shuffle_spec sample_take id isShuffler_id [demo_question] Difficulty.low 0
    (by decide) _ _ rfl rfl).2.1

/-- The answer step advances the cursor by one and leaves the total
unchanged, in both the match and the mismatch branch. -/
lemma submit_answer_cursor (ss : QuizState) (a : String) :
    (submit_answer ss a).current_question = ss.current_question + 1 ∧
    (submit_answer ss a).total_questions = ss.total_questions := by
  unfold submit_answer
  by_cases hc : a = (ss.questions.getD ss.current_question default).correct_answer
  · rw [if_pos hc]; exact ⟨rfl, rfl⟩
  · rw [if_neg hc]; exact ⟨rfl, rfl⟩

/-- C4: every session reachable from initialization by any sequence of start,
accepted answer, and restart operations satisfies
`0 ≤ current_question ≤ total_questions`, and it accepts no further answer
exactly when `current_question = total_questions`. -/
theorem reachable_invariant (bank : List Question) (d : Difficulty) (ss : QuizState)
    (h : Reachable bank d ss) :
    (0 ≤ ss.current_question ∧ ss.current_question ≤ ss.total_questions) ∧
    ((∀ a, submit_answer_opt ss a = none) ↔
      ss.current_question = ss.total_questions) := by
  have hle : ss.current_question ≤ ss.total_questions := by
    induction h with
    | init sampleFn shuffleFn hs hf => exact Nat.zero_le _
    | start ss3 h3 ih => exact ih
    | answer ss3 a ss4 h3 hstep ih =>
        unfold submit_answer_opt at hstep
        split at hstep
        · injection hstep with h4
          have hcur := (submit_answer_cursor ss3 a).1
          have htot := (submit_answer_cursor ss3 a).2
          rw [← h4]
          omega
        · cases hstep
    | restart ss3 sampleFn shuffleFn hs hf h3 ih => exact Nat.zero_le _
  refine ⟨⟨Nat.zero_le _, hle⟩, ?_, ?_⟩
  · intro hnone
    have hx := hnone ""
    unfold submit_answer_opt at hx
    by_cases hlt : ss.current_question < ss.total_questions
    · rw [if_pos hlt] at hx
      cases hx
    · omega
  · intro heq a
    unfold submit_answer_opt
    rw [if_neg (by omega)]

/-- Closed witness for `reachable_invariant` at a freshly initialized state. -/
theorem reachable_invariant_witness :
    (initialize_quiz_state sample_take id [demo_question] Difficulty.low).current_question ≤
      (initialize_quiz_state sample_take id [demo_question] Difficulty.low).total_questions :=
  (reachable_invariant [demo_question] Difficulty.low _
    (Reachable.init sample_take id isSampler_sample_take isShuffler_id)).1.2

/-- C5: under the session invariant, the final report is available exactly when
`current_question = total_questions` (and not before), and the
current-question query fails with no current question exactly then. -/
theorem report_guard_spec (ss : QuizState)
    (h : ss.current_question ≤ ss.total_questions) :
    ((report_query ss).isSome ↔ ss.current_question = ss.total_questions) ∧
    (report_query ss = none ↔ ss.current_question < ss.total_questions) ∧
    (current_question_query ss = none ↔
      ss.current_question = ss.total_questions) ∧
    ((current_question_query ss).isSome ↔
      ss.current_question < ss.total_questions) := by
  by_cases hlt : ss.current_question < ss.total_questions
  · simp only [report_query, current_question_query, if_pos hlt]
    refine ⟨?_, ?_, ?_, ?_⟩ <;> simp <;> omega
  · simp only [report_query, current_question_query, if_neg hlt]
    refine ⟨?_, ?_, ?_, ?_⟩ <;> simp <;> omega

/-- Closed witness for `report_guard_spec` on a concrete in-progress state. -/
theorem report_guard_spec_witness :
    report_query demo_state = none :=
  (report_guard_spec demo_state (by decide)).2.1.mpr (by decide)

end QuizApp
